import Mathlib

set_option maxRecDepth 10000

/-!
# Verification of the "Terminal Escape" game server

Shallow embedding of the server (`game/app.js`), its virtual file system
(`game/lib/virtual-file-system.js`), the external-actor bridge
(`handleNeuroMessage` together with `lib/neuro-integration.js`), and the
client's rendering of directory listings (`public/js/index.js`).

JavaScript strings are modelled as Lean `String`; the character-level string
operations the server uses (`split`, `startsWith`, Node's `path.posix`
functions) are implemented below directly over `String.data` so that their
behaviour is transparent to proofs.
-/

/-- Model of JS `s.split(sep)` for a single-character separator, at the
character-list level: `n` occurrences of the separator yield `n + 1` pieces,
empty pieces included (`"/a//b".split("/") = ["", "a", "", "b"]`). -/
def splitChar (c : Char) : List Char → List (List Char)
  | [] => [[]]
  | x :: xs =>
    if x = c then [] :: splitChar c xs
    else
      match splitChar c xs with
      | [] => [[x]]
      | y :: ys => (x :: y) :: ys

/-- Model of JS `s.split(sep)` (single-character separator) on strings. -/
def splitStr (c : Char) (s : String) : List String :=
  (splitChar c s.data).map (fun l => ⟨l⟩)

/-- Model of JS `s.startsWith("/")`. -/
def headIsSlash : List Char → Bool
  | '/' :: _ => true
  | _ => false

def startsWithSlash (s : String) : Bool := headIsSlash s.data

/-- Whether the final character is a `/` (Node's trailing-separator check). -/
def lastIsSlash (l : List Char) : Bool := l.getLast? == some '/'

/-- One step of Node's `normalizeString`: skip empty and `.` segments, let
`..` pop the previous segment (or survive at the front of a relative path),
and push any other segment. `allowAboveRoot` is true for relative paths. -/
def normStepC (allowAboveRoot : Bool) (acc : List (List Char)) (seg : List Char) :
    List (List Char) :=
  if seg = [] ∨ seg = ['.'] then acc
  else if seg = ['.', '.'] then
    match acc with
    | [] => if allowAboveRoot then [seg] else []
    | a :: rest => if a = ['.', '.'] then seg :: a :: rest else rest
  else seg :: acc

/-- Join segments with `/` (the inverse direction of `splitChar '/'`). -/
def joinSegs : List (List Char) → List Char
  | [] => []
  | [s] => s
  | s :: rest => s ++ '/' :: joinSegs rest

/-- Model of Node's `path.posix.normalize`, at the character-list level:
resolve `.` and `..`, collapse duplicate separators, keep the leading `/` of
an absolute path and preserve a trailing separator. -/
def normPath (l : List Char) : List Char :=
  if l = [] then ['.']
  else
    let isAbs := headIsSlash l
    let trailing := lastIsSlash l
    let core := joinSegs (((splitChar '/' l).foldl (normStepC (!isAbs)) []).reverse)
    if core = [] then
      if isAbs then ['/'] else if trailing then ['.', '/'] else ['.']
    else
      let core' := if trailing then core ++ ['/'] else core
      if isAbs then '/' :: core' else core'

/-- Model of Node's `path.posix.normalize` on strings. -/
def posixNormalize (s : String) : String := ⟨normPath s.data⟩

/-- Model of Node's `path.posix.join` for the two-argument form used by the
server: empty arguments are dropped, the remainder is joined with `/` and
normalized, and joining nothing yields `"."`. -/
def posixJoin (a b : String) : String :=
  if a = "" && b = "" then "."
  else if a = "" then posixNormalize b
  else if b = "" then posixNormalize a
  else posixNormalize (a ++ "/" ++ b)

/-- Model of JS `String.prototype.trim` (strip leading and trailing
whitespace), at the character level so proofs and witnesses can evaluate it. -/
def jsTrim (s : String) : String :=
  ⟨((s.data.dropWhile Char.isWhitespace).reverse.dropWhile Char.isWhitespace).reverse⟩

/-- Model of JS `String.prototype.toLowerCase` (ASCII case folding, which is
all the session's passwords use), at the character level. -/
def jsToLower (s : String) : String :=
  ⟨s.data.map (fun c => if c.toNat ≥ 65 ∧ c.toNat ≤ 90 then Char.ofNat (c.toNat + 32) else c)⟩

/-- The `dir` and `base` fields of Node's `path.posix.parse`, as used by
`VFileSystem.getFile` (`parsedPath.dir` and `parsedPath.name + parsedPath.ext`):
trailing separators are ignored, `base` is the part after the last remaining
`/`, and `dir` is the part before it (the root `"/"` when that part is empty
in an absolute path). -/
def parseDirBase (p : String) : String × String :=
  let l := p.data
  let stripped := (l.reverse.dropWhile (fun c => c = '/')).reverse
  if stripped = [] then
    (if headIsSlash l then "/" else "", "")
  else
    let rev := stripped.reverse
    let baseRev := rev.takeWhile (fun c => c ≠ '/')
    let restRev := rev.dropWhile (fun c => c ≠ '/')
    let base : String := ⟨baseRev.reverse⟩
    match restRev with
    | [] => ("", base)
    | _ :: dirRev =>
      let d := dirRev.reverse
      (if d = [] then "/" else (⟨d⟩ : String), base)

/-! ## The virtual file system (`game/lib/virtual-file-system.js`) -/

/-- `VFile`: a leaf of the virtual file system. `password` is `none` when the
JSON definition carries no `password` property (JS `undefined`). -/
structure VFile where
  name : String
  contentType : String
  content : String
  size : String
  password : Option String
deriving DecidableEq, Repr

/-- A node of the virtual tree: either a `VFile` or a `VDirectory` whose
`children` record is modelled as an association list in property-insertion
order (JS object string keys enumerate in insertion order). -/
inductive VNode where
  | file (f : VFile)
  | dir (name : String) (children : List (String × VNode))

/-- The single error class `VFileSystemError`, which carries only a message. -/
structure VFileSystemError where
  message : String
deriving DecidableEq, Repr

/-- The `children` record of a node (`undefined`, i.e. empty, for a file). -/
def childrenOf : VNode → List (String × VNode)
  | .file _ => []
  | .dir _ cs => cs

/-- First binding of `name`, i.e. JS property lookup `dir.children[name]`. -/
def findChild : List (String × VNode) → String → Option VNode
  | [], _ => none
  | (k, v) :: rest, name => if k = name then some v else findChild rest name

/-- Model of `getChild(dir, name)`: `dir.children[name] || null`. -/
def getChild (d : VNode) (name : String) : Option VNode :=
  findChild (childrenOf d) name

/-- `VFileSystem`: the root directory plus the two pieces of cursor state,
`curPath` and `curDir`. -/
structure VFileSystem where
  rootDir : VNode
  curPath : String
  curDir : VNode

/-- The resolution loop shared by `changeDirectory` and `getDir`: walk the
path components from `curDir`, accumulating `partialPath` for error messages
(`newPath` is the full path quoted in those messages). -/
def walkPath (newPath : String) : VNode → String → List String →
    Except VFileSystemError VNode
  | curDir, _, [] => .ok curDir
  | curDir, partialPath, component :: rest =>
    let partialPath' := partialPath ++ "/" ++ component
    match getChild curDir component with
    | none =>
      .error ⟨"The directory \"" ++ newPath ++ "\" does not exist; \"" ++
        partialPath' ++ "\" does not exist"⟩
    | some child =>
      match child with
      | .file _ =>
        .error ⟨"The directory \"" ++ newPath ++ "\" does not exist; \"" ++
          partialPath' ++ "\" is a file, not a directory"⟩
      | .dir n cs => walkPath newPath (.dir n cs) partialPath' rest

/-- Model of `VFileSystem.changeDirectory(newPath)`: the JS method assigns
`curPath` and `curDir` only after the whole walk succeeded, so a thrown
`VFileSystemError` leaves both fields untouched — here, `.error` returns no
new state. Note that the argument is split on `/` with no discarding of
empty components (only its first component, before the leading `/`, is
skipped) and with no normalization. -/
def changeDirectory (fs : VFileSystem) (newPath : String) :
    Except VFileSystemError VFileSystem :=
  if newPath = "/" then .ok { fs with curPath := "/", curDir := fs.rootDir }
  else
    match walkPath newPath fs.rootDir "" ((splitStr '/' newPath).drop 1) with
    | .error e => .error e
    | .ok d => .ok { fs with curPath := newPath, curDir := d }

/-- Model of `VFileSystem.getDir(path)`: unlike `changeDirectory` it first
applies `path.posix.normalize` to its argument (after the `"/"` special
case, which is tested on the raw argument). -/
def getDir (fs : VFileSystem) (path : String) : Except VFileSystemError VNode :=
  if path = "/" then .ok fs.rootDir
  else
    let path' := posixNormalize path
    walkPath path' fs.rootDir "" ((splitStr '/' path').drop 1)

/-- Model of `VFileSystem.getFile(path)`: split the path into containing
directory and leaf name with `path.posix.parse`, resolve the directory with
`getDir`, then require the leaf to be a file. The stray closing quote in the
"points to a directory" message is present in the source. -/
def getFile (fs : VFileSystem) (path : String) : Except VFileSystemError VFile :=
  let dirPath := (parseDirBase path).1
  let fileName := (parseDirBase path).2
  match getDir fs dirPath with
  | .error e => .error e
  | .ok d =>
    match getChild d fileName with
    | none =>
      .error ⟨"The file \"" ++ fileName ++ "\" does not exist in the directory \"" ++
        dirPath ++ "\""⟩
    | some (.dir _ _) =>
      .error ⟨"The path \"" ++ fileName ++ "\" points to a directory, not a file\""⟩
    | some (.file f) => .ok f

-- sanity checks for the path model (kernel-evaluated)
example : posixNormalize "/a//b" = "/a/b" := by decide
example : posixNormalize "/a/" = "/a/" := by decide
example : posixNormalize "/a/b/.." = "/a" := by decide
example : posixNormalize "/.." = "/" := by decide
example : posixNormalize ".." = ".." := by decide
example : posixJoin "/a/b" ".." = "/a" := by decide
example : posixJoin "/" ".." = "/" := by decide
example : parseDirBase "/docs/readme.txt" = ("/docs", "readme.txt") := by decide
example : parseDirBase "/a" = ("/", "a") := by decide
example : splitStr '/' "/a//b" = ["", "a", "", "b"] := by decide

/-! ## Messages, session state and the command interpreter (`game/app.js`) -/

/-- The display record for one directory entry (`VDirDisplayFormat` in
`game-types.js`: `type` is `"file"` or `"directory"`, `size` is optional). -/
structure DisplayEntry where
  name : String
  type : String
  size : Option String
deriving DecidableEq, Repr

/-- Modelled from the spec: `toDisplayFormat` is imported by the server from
the virtual-file-system module, but its definition is not among the available
sources. Spec §4.2 describes it: "returns, for every child of
`currentDirectory`, a display record `{name, kind: file|directory, size?}`",
matching the client's `VDirDisplayFormat` typedef. -/
def toDisplayFormat : VNode → DisplayEntry
  | .file f => ⟨f.name, "file", some f.size⟩
  | .dir n _ => ⟨n, "directory", none⟩

/-- The outbound message union (`game-types.js`), restricted to the variants
the server ever appends to the transcript or broadcasts. (`transfer-state`
is sent only to a newly joined viewer and never stored; it is modelled
separately by `ViewerChannel.replay`.) -/
inductive Message where
  | cmdInvocation (msg : String)
  | cmdResult (msg : String)
  | displayDir (contents : List DisplayEntry)
  | displayFile (file : VFile)
  | reset
deriving DecidableEq, Repr

/-- The two primitive publication actions of the server, in the order the
code performs them: `push m` is `messages.push(m)` (append to the
transcript), `send m` is `sendToAllWebSockets(JSON.stringify(m))` (fan-out
to every connected viewer channel). -/
inductive ServerOp where
  | push (m : Message)
  | send (m : Message)
deriving DecidableEq, Repr

/-- The mutable session state of `app.js` relevant to command handling: the
virtual file system and the two shutdown gate booleans. (The transcript is
tracked through the emitted `ServerOp.push` operations.) -/
structure SessionState where
  vfs : VFileSystem
  adminShutdownUnlocked : Bool
  adminShutdownInitiated : Bool

/-- The `data` part of an `action/result` message. -/
structure ActionResultData where
  id : String
  success : Bool
  message : String
deriving DecidableEq, Repr

/-- `handleCommand`'s effects: the publication operations it performed in
order, the session state it left behind, and the `action/result` data it
returned for the external actor. -/
structure CommandOutcome where
  ops : List ServerOp
  state : SessionState
  result : ActionResultData

/-- The `if (result) { messages.push(...); sendToAllWebSockets(...) }` block
at the end of `handleCommand`: a `cmd/result` event is published only when
the `result` variable is a truthy string (non-null and non-empty). -/
def trailingOps (result : Option String) : List ServerOp :=
  match result with
  | some s => if s = "" then [] else [.push (.cmdResult s), .send (.cmdResult s)]
  | none => []

/-- The initial value of `actionResultMessage.data` in `handleCommand`. -/
def defaultActionResult : ActionResultData :=
  ⟨"REPLACE_ME", false, "Someone tell EnterpriseScratchDev there's a problem with his code"⟩

/-- JS truthiness of an optional string property (`undefined` and `""` are
falsy). -/
def strTruthy : Option String → Bool
  | none => false
  | some s => !(s == "")

/-- Simplified model of `JSON.stringify` for one directory entry (property
order follows `toDisplayFormat`; no escaping — names in the session data are
plain). The exact rendering is irrelevant to every claim below. -/
def jsonOfEntry (e : DisplayEntry) : String :=
  "\x7b\"name\":\"" ++ e.name ++ "\",\"type\":\"" ++ e.type ++ "\"" ++
    (match e.size with
     | some s => ",\"size\":\"" ++ s ++ "\""
     | none => "") ++ "\x7d"

def jsonOfEntries (l : List DisplayEntry) : String :=
  "[" ++ String.intercalate "," (l.map jsonOfEntry) ++ "]"

/-- Simplified model of `JSON.stringify(file)` (same caveats as
`jsonOfEntry`). -/
def jsonOfFile (f : VFile) : String :=
  "\x7b\"name\":\"" ++ f.name ++ "\",\"type\":\"file\",\"contentType\":\"" ++
    f.contentType ++ "\",\"content\":\"" ++ f.content ++ "\",\"size\":\"" ++ f.size ++ "\"" ++
    (match f.password with
     | some p => ",\"password\":\"" ++ p ++ "\""
     | none => "") ++ "\x7d"

/-- The path actually resolved by the `open` command (and by
`handleChangeDirectory`) for a raw token: absolute arguments are normalized,
relative ones are normalized and joined onto `vfs.curPath`. -/
def resolveArgPath (vfs : VFileSystem) (tok : String) : String :=
  if startsWithSlash tok then posixNormalize tok
  else posixJoin vfs.curPath (posixNormalize tok)

/-- Model of `handleChangeDirectory(directory)` in `app.js`: a no-op for an
empty argument, otherwise normalize/join and call
`VFileSystem.changeDirectory`. -/
def handleChangeDirectory (fs : VFileSystem) (directory : String) :
    Except VFileSystemError VFileSystem :=
  if directory = "" then .ok fs
  else changeDirectory fs (resolveArgPath fs directory)

/-- The `help` text (admin line included only once unlocked). -/
def helpText (unlocked : Bool) : String :=
  "Commands\n" ++
  (if unlocked then
    "admin_shutdown: Shut down the simulation, setting Neuro-sama free.\n└─Usage: admin_shutdown\n"
   else "") ++
  "pwd: Print the name of the working directory\n└─Usage: pwd\n" ++
  "cd: Change the working directory\n└─Usage: cd [dir]\n" ++
  "ls: List the contents of the working directory\n└─Usage: ls\n" ++
  "open: View the contents of a file (password is only for password-protected files)\n└─Usage: cd [file] [password]"

/-- Model of `handleCommand(message)` in `app.js`, one branch per `switch`
case. Side effects that leave the session (calls into `neuroIntegration`,
the `setTimeout`-scheduled process exit after `admin_shutdown`) are outside
the model; the `ServerOp` list records exactly the `messages.push` /
`sendToAllWebSockets` calls in source order. -/
def handleCommand (st : SessionState) (msgText : String) : CommandOutcome :=
  let tokens := splitStr ' ' msgText
  let command := tokens.headD ""
  let argc := tokens.length - 1
  match command with
  | "" =>
    { ops := trailingOps (some ""), state := st, result := defaultActionResult }
  | "help" =>
    { ops := trailingOps (some (helpText st.adminShutdownUnlocked)), state := st,
      result := defaultActionResult }
  | "pwd" =>
    { ops := trailingOps (some st.vfs.curPath), state := st,
      result := ⟨"REPLACE_ME", true, "The working directory is " ++ st.vfs.curPath⟩ }
  | "cd" =>
    if argc = 0 then
      { ops := trailingOps (some ("cd: " ++ st.vfs.curPath)), state := st,
        result := ⟨"REPLACE_ME", true,
          "The working directory has not changed; it is still " ++ st.vfs.curPath⟩ }
    else if argc = 1 then
      match handleChangeDirectory st.vfs (tokens.getD 1 "") with
      | .ok vfs' =>
        { ops := trailingOps (some ("cd: " ++ vfs'.curPath)),
          state := { st with vfs := vfs' },
          result := ⟨"REPLACE_ME", true,
            "The working directory has been changed to " ++ vfs'.curPath⟩ }
      | .error e =>
        { ops := trailingOps (some ("cd: " ++ e.message)), state := st,
          result := ⟨"REPLACE_ME", false,
            "Failed to change the working directory; the error message is " ++
              st.vfs.curPath⟩ }
    else
      { ops := trailingOps (some "cd: expected one argument"), state := st,
        result := defaultActionResult }
  | "ls" =>
    let dirContents := (childrenOf st.vfs.curDir).map (fun p => toDisplayFormat p.2)
    let resultMessage : Message := .displayDir dirContents
    { ops := [.push resultMessage, .send resultMessage] ++ trailingOps none,
      state := st,
      result := ⟨"REPLACE_ME", true,
        "The following JSON represents the contents of the working directory. Remember that you can use `cd` to change directories and `open` to view a file's contents.\n"
          ++ jsonOfEntries dirContents⟩ }
  | "open" =>
    if argc ≠ 1 ∧ argc ≠ 2 then
      { ops := trailingOps (some "open: expected one or two arguments"), state := st,
        result := ⟨"REPLACE_ME", false, "open: expected one or two arguments"⟩ }
    else
      let password : Option String := if argc = 2 then some (tokens.getD 2 "") else none
      let filePath := resolveArgPath st.vfs (tokens.getD 1 "")
      match getFile st.vfs filePath with
      | .error e =>
        { ops := trailingOps (some ("open: " ++ e.message)), state := st,
          result := ⟨"REPLACE_ME", false, "Error opening file: " ++ e.message⟩ }
      | .ok file =>
        if strTruthy file.password ∧ !strTruthy password then
          let r := "open: access denied; this file is password-protected"
          { ops := [.push (.cmdResult r), .send (.cmdResult r)] ++ trailingOps none,
            state := st, result := ⟨"REPLACE_ME", false, r⟩ }
        else if strTruthy file.password ∧
            jsToLower (jsTrim (file.password.getD "")) ≠ jsToLower (jsTrim (password.getD "")) then
          let r := "open: access denied; incorrect password"
          { ops := [.push (.cmdResult r), .send (.cmdResult r)] ++ trailingOps none,
            state := st, result := ⟨"REPLACE_ME", false, r⟩ }
        else
          let st1 := if file.name = "admin_shutdown.sh" then
              { st with adminShutdownUnlocked := true }
            else st
          let resultMessage : Message := .displayFile file
          { ops := [.push resultMessage, .send resultMessage] ++ trailingOps none,
            state := st1, result := ⟨"REPLACE_ME", true, jsonOfFile file⟩ }
  | "admin_shutdown" =>
    if !st.adminShutdownUnlocked then
      { ops := trailingOps (some "admin_shutdown: command not found; try typing \"help\""),
        state := st, result := defaultActionResult }
    else
      { ops := trailingOps
          (some "The system shuts down gracefully. Is Neuro-sama truly free now?"),
        state := { st with adminShutdownInitiated := true },
        result := defaultActionResult }
  | cmd =>
    { ops := trailingOps (some (cmd ++ ": command not found; try typing \"help\"")),
      state := st, result := defaultActionResult }

/-- An inbound viewer frame after JSON decoding, tagged by its `command`
discriminator (`malformed` stands for an unparseable frame or one with no
string `command` property — both are dropped by the `ws.on("message")`
handler before `handleMessage` runs). -/
inductive InboundFrame where
  | invocation (msg : String)
  | resultFrame (msg : String)
  | unknown (command : String)
  | malformed

structure WsOutcome where
  ops : List ServerOp
  state : SessionState

/-- Model of `handleMessage(message)`: a `cmd/invocation` frame is appended
to the transcript, relayed to every client, and then executed; every other
frame only logs an error. -/
def handleMessage (st : SessionState) (frame : InboundFrame) : WsOutcome :=
  match frame with
  | .invocation m =>
    let echo : Message := .cmdInvocation m
    let out := handleCommand st m
    { ops := [.push echo, .send echo] ++ out.ops, state := out.state }
  | _ => { ops := [], state := st }

/-- Model of the `ws.on("message")` envelope: once `adminShutdownInitiated`
is set, every inbound frame is ignored before it is even parsed. -/
def handleWsMessage (st : SessionState) (frame : InboundFrame) : WsOutcome :=
  if st.adminShutdownInitiated then { ops := [], state := st }
  else handleMessage st frame

/-! ## The external-actor bridge (`handleNeuroMessage`) -/

/-- The result of the bridge's `JSON.parse(actionMessage.data.data)`: either
a flat object with string-valued properties (the only shape the action
protocol sends and the only one the bridge reads properties from), or some
other JSON value, from which every optional-chained property read yields
`undefined`. -/
inductive JsonArg where
  | obj (props : List (String × String))
  | scalar
deriving DecidableEq, Repr

/-- Skip JSON whitespace. -/
def skipWs : List Char → List Char
  | c :: rest =>
    if c = ' ' ∨ c = '\n' ∨ c = '\t' ∨ c = '\r' then skipWs rest else c :: rest
  | [] => []

/-- A JSON string literal body (after the opening quote), without escape
sequences; returns the body and the remainder after the closing quote. -/
def strLitAux : List Char → Option (List Char × List Char)
  | [] => none
  | c :: rest =>
    if c = '"' then some ([], rest)
    else if c = '\\' then none
    else
      match strLitAux rest with
      | some (s, r) => some (c :: s, r)
      | none => none

/-- One or more comma-separated `"key": "value"` pairs followed by the
closing brace of the object. Fuel-driven; callers pass the input length. -/
def jsonPairs : Nat → List Char → Option (List (String × String) × List Char)
  | 0, _ => none
  | fuel + 1, input =>
    match skipWs input with
    | '"' :: rest =>
      (match strLitAux rest with
       | none => none
       | some (k, r1) =>
         match skipWs r1 with
         | ':' :: r2 =>
           (match skipWs r2 with
            | '"' :: r3 =>
              (match strLitAux r3 with
               | none => none
               | some (v, r4) =>
                 match skipWs r4 with
                 | ',' :: r5 =>
                   (match jsonPairs fuel r5 with
                    | some (ps, r6) => some (((⟨k⟩ : String), (⟨v⟩ : String)) :: ps, r6)
                    | none => none)
                 | '}' :: r5 => some ([((⟨k⟩ : String), (⟨v⟩ : String))], r5)
                 | _ => none)
            | _ => none)
         | _ => none)
    | _ => none

def isWsOnly : List Char → Bool
  | [] => true
  | c :: r => (c == ' ' || c == '\n' || c == '\t' || c == '\r') && isWsOnly r

def isDigitList : List Char → Bool
  | [] => false
  | l => l.all (fun c => c.isDigit)

/-- Simplified model of `JSON.parse` for the payloads the bridge receives:
flat string-valued objects, plus the simple scalar documents `null`, `true`,
`false`, quoted strings and unsigned integers. Anything else fails. The
bridge only reads optional string properties from the result, so richer
JSON values need no distinct representation. -/
def jsonParseFlat (s : String) : Except String JsonArg :=
  match skipWs s.data with
  | '{' :: rest =>
    (match skipWs rest with
     | '}' :: r => if isWsOnly r then .ok (.obj []) else .error "Unexpected token"
     | _ =>
       match jsonPairs s.length rest with
       | some (ps, r) => if isWsOnly r then .ok (.obj ps) else .error "Unexpected token"
       | none => .error "Unexpected token")
  | '"' :: rest =>
    (match strLitAux rest with
     | some (_, r) => if isWsOnly r then .ok .scalar else .error "Unexpected token"
     | none => .error "Unexpected end of JSON input")
  | input =>
    let body := input.takeWhile (fun c => !(c == ' ' || c == '\n' || c == '\t' || c == '\r'))
    let rest := input.dropWhile (fun c => !(c == ' ' || c == '\n' || c == '\t' || c == '\r'))
    if (body = "null".data ∨ body = "true".data ∨ body = "false".data ∨
        isDigitList body = true) ∧ isWsOnly rest = true then
      .ok .scalar
    else .error "Unexpected token"

/-- `JSON.parse(actionMessage.data.data)` where the payload property may be
absent: JS `JSON.parse(undefined)` stringifies its argument to the invalid
document `undefined` and throws. -/
def parseActionData : Option String → Except String JsonArg
  | none => .error "Unexpected token u in JSON at position 0"
  | some s => jsonParseFlat s

/-- An optional-chained string property read, `parsed?.key`. -/
def argStr (j : JsonArg) (key : String) : Option String :=
  match j with
  | .obj props => props.lookup key
  | .scalar => none

/-- The inbound `{command:"action", data:{id, name, data?}}` message (its
schema is validated by `neuro-integration.js` before the callback runs). -/
structure ActionMessage where
  id : String
  name : String
  data : Option String

structure NeuroOutcome where
  ops : List ServerOp
  state : SessionState
  result : ActionResultData

/-- Model of `handleNeuroMessage(actionMessage)`. Faithful to the source:

* once shutdown has been initiated, the bridge returns a failure result
  before parsing anything;
* a payload that `JSON.parse` rejects produces the "Malformed JSON" failure
  with no further effect;
* the `switch` over the action name early-returns only for a locked
  `admin_shutdown` — its `default` case does *not* return, so an unknown
  action falls through with the empty command line;
* the synthesized echo is broadcast (`sendToAllWebSockets`) *before* it is
  appended (`messages.push`) — the reverse of `handleMessage`'s order;
* the returned result is `handleCommand`'s result with the action's id. -/
def handleNeuroMessage (st : SessionState) (a : ActionMessage) : NeuroOutcome :=
  if st.adminShutdownInitiated then
    { ops := [], state := st,
      result := ⟨a.id, false,
        "The admin_shutdown protocol has been initiated. Your command has no effect."⟩ }
  else
    match parseActionData a.data with
    | .error _ =>
      { ops := [], state := st,
        result := ⟨a.id, false, "Malformed JSON in action argument"⟩ }
    | .ok args =>
      let picked : Option String :=
        match a.name with
        | "pwd" => some "pwd"
        | "change_directory" =>
          some ("cd " ++ (match argStr args "dir" with
                          | some d => if d = "" then "" else d
                          | none => ""))
        | "ls" => some "ls"
        | "open_file" =>
          some ("open"
            ++ (match argStr args "file" with
                | some f => if f = "" then "" else " " ++ f
                | none => "")
            ++ (match argStr args "password" with
                | some p => if p = "" then "" else " " ++ p
                | none => ""))
        | "admin_shutdown" =>
          if st.adminShutdownUnlocked then some "admin_shutdown" else none
        | _ => some ""
      match picked with
      | none =>
        { ops := [], state := st,
          result := ⟨a.id, false, "Unknown action. Please try again."⟩ }
      | some command =>
        let echo : Message := .cmdInvocation command
        let out := handleCommand st command
        { ops := [.send echo, .push echo] ++ out.ops,
          state := out.state,
          result := { out.result with id := a.id } }

/-! ## Replication to viewer channels (`wss.on("connection")`,
`sendToAllWebSockets`) -/

/-- One connected viewer channel's view of the session: the transcript
snapshot it received in its single `transfer-state` message on join, and
the events delivered to it live afterwards. -/
structure ViewerChannel where
  replay : List Message
  live : List Message
deriving DecidableEq, Repr

/-- The session-level events of the replication protocol. `publish m` is one
publication as performed inside a single synchronous handler invocation
(`messages.push(m)` together with the `sendToAllWebSockets` fan-out);
`join` is one `wss.on("connection")` callback (register the channel and send
it the current transcript as `transfer-state`). Node's single-threaded event
loop runs each of these blocks to completion, so a join can never interleave
with the inside of a publication — which is what justifies treating both as
atomic steps. -/
inductive SessionEvent where
  | publish (m : Message)
  | join

structure ReplicationWorld where
  transcript : List Message
  viewers : List ViewerChannel
deriving DecidableEq, Repr

def replicationStep (w : ReplicationWorld) (e : SessionEvent) : ReplicationWorld :=
  match e with
  | .publish m =>
    { transcript := w.transcript ++ [m],
      viewers := w.viewers.map (fun v => { v with live := v.live ++ [m] }) }
  | .join =>
    { transcript := w.transcript,
      viewers := w.viewers ++ [{ replay := w.transcript, live := [] }] }

def replicationRun (w : ReplicationWorld) (es : List SessionEvent) : ReplicationWorld :=
  es.foldl replicationStep w

/-! ## The client's directory rendering (`public/js/index.js`) -/

/-- The order the client sorts directory entries by:
`(a, b) => a.name.localeCompare(b.name)`, modelled with the string order. -/
def nameLe (a b : DisplayEntry) : Prop := a.name ≤ b.name

instance : DecidableRel nameLe := fun a b => inferInstanceAs (Decidable (a.name ≤ b.name))

instance : IsTotal DisplayEntry nameLe := ⟨fun a b => le_total a.name b.name⟩

instance : IsTrans DisplayEntry nameLe := ⟨fun _ _ _ hab hbc => le_trans hab hbc⟩

/-- Model of the client's `handleDisplayDirectory(dirContents)`: it sorts the
received entries by name (`dirContents.sort(...)`) and renders the table rows
in that order; the value returned here is the row order.  JS `Array.sort` is
a stable comparator sort, modelled with insertion sort. -/
def handleDisplayDirectory (dirContents : List DisplayEntry) : List DisplayEntry :=
  dirContents.insertionSort nameLe

/-! ## Ordering of append and fan-out -/

/-- "Appended strictly before fanned out": every `send` of an event is
preceded, somewhere earlier in the operation list, by a `push` of that same
event. -/
def PushBeforeSend (ops : List ServerOp) : Prop :=
  ∀ m pre suf, ops = pre ++ ServerOp.send m :: suf → ServerOp.push m ∈ pre

/-- Operation lists that are a concatenation of `[push m, send m]` blocks —
the shape every publication site in `handleCommand` and `handleMessage`
produces. -/
inductive OpBlocks : List ServerOp → Prop where
  | nil : OpBlocks []
  | block (m : Message) (rest : List ServerOp) :
      OpBlocks rest → OpBlocks (ServerOp.push m :: ServerOp.send m :: rest)

/-! ## Concrete session fixtures used by witnesses and counterexamples -/

def readmeFile : VFile := ⟨"readme.txt", "text", "hello", "5.00 B", none⟩
def secretFile : VFile := ⟨"secret.txt", "text", "the secret", "10.00 B", some "Hunter2"⟩
def sentinelFile : VFile := ⟨"admin_shutdown.sh", "text", "#!/bin/sh", "9.00 B", none⟩

def dirB : VNode := .dir "b" []
def dirA : VNode := .dir "a" [("b", dirB)]
def dirDocs : VNode :=
  .dir "docs" [("readme.txt", .file readmeFile), ("secret.txt", .file secretFile),
    ("admin_shutdown.sh", .file sentinelFile)]
def rootNode : VNode := .dir "" [("a", dirA), ("docs", dirDocs)]

def fsRoot : VFileSystem := ⟨rootNode, "/", rootNode⟩
def stRoot : SessionState := ⟨fsRoot, false, false⟩
def fsAB : VFileSystem := ⟨rootNode, "/a/b", dirB⟩
def stAB : SessionState := ⟨fsAB, false, false⟩

/-! ## C8: `cd ..` -/

/-- C8: with current path `/a/b` (where `/a` and `/a/b` are directories of the
tree), the command `cd ..` succeeds and leaves the current path equal to
`/a`; with current path `/`, `cd ..` succeeds, leaves the current path equal
to `/`, and reports no error (its one result event is the success echo
`cd: /`, and the structured result is a success). -/
theorem c8_cd_dotdot :
    (handleCommand stAB "cd ..").state.vfs.curPath = "/a" ∧
    (handleCommand stAB "cd ..").ops =
      [.push (.cmdResult "cd: /a"), .send (.cmdResult "cd: /a")] ∧
    (handleCommand stAB "cd ..").result.success = true ∧
    (handleCommand stRoot "cd ..").state.vfs.curPath = "/" ∧
    (handleCommand stRoot "cd ..").ops =
      [.push (.cmdResult "cd: /"), .send (.cmdResult "cd: /")] ∧
    (handleCommand stRoot "cd ..").result.success = true := by
  refine ⟨?_, ?_, ?_, ?_, ?_, ?_⟩ <;> decide

/-! ## C2: exactly-once, in-order delivery to viewers -/

theorem replicationRun_publishList (es : List Message) : ∀ w : ReplicationWorld,
    replicationRun w (es.map SessionEvent.publish) =
      { transcript := w.transcript ++ es,
        viewers := w.viewers.map fun v => { v with live := v.live ++ es } } := by
  induction es with
  | nil =>
    intro w
    simp [replicationRun]
  | cons m rest ih =>
    intro w
    have h := ih (replicationStep w (.publish m))
    simp only [replicationRun, List.map_cons, List.foldl_cons] at h ⊢
    rw [h]
    simp [replicationStep, List.map_map, ReplicationWorld.mk.injEq, Function.comp]

/-- C2: for any sequence of published events split as `es1 ++ es2` around one
viewer join, every viewer present from the start has the whole sequence
appended to its delivered events in order (exactly once, no gap), and the
joining viewer receives exactly the baseline transcript plus `es1` in its
single `transfer-state` snapshot and exactly `es2` live. -/
theorem c2_exactly_once_in_order (w0 : ReplicationWorld) (es1 es2 : List Message) :
    replicationRun w0 (es1.map .publish ++ SessionEvent.join :: es2.map .publish) =
      { transcript := (w0.transcript ++ es1) ++ es2,
        viewers :=
          (w0.viewers.map fun v => { v with live := v.live ++ (es1 ++ es2) })
            ++ [{ replay := w0.transcript ++ es1, live := es2 }] } := by
  have key : replicationRun w0 (es1.map .publish ++ SessionEvent.join :: es2.map .publish)
      = replicationRun (replicationStep (replicationRun w0 (es1.map .publish)) .join)
          (es2.map .publish) := by
    simp [replicationRun, List.foldl_append]
  rw [key, replicationRun_publishList es1 w0, replicationStep, replicationRun_publishList]
  simp [List.map_map, ReplicationWorld.mk.injEq, Function.comp, List.append_assoc]

/-! ## C1: transcript append versus fan-out order -/

theorem opBlocks_pushBeforeSend {ops : List ServerOp} (h : OpBlocks ops) :
    PushBeforeSend ops := by
  induction h with
  | nil =>
    intro a pre suf hsplit
    exact absurd hsplit.symm (by simp)
  | block m rest _ ih =>
    intro a pre suf hsplit
    cases pre with
    | nil => simp at hsplit
    | cons p pre' =>
      rw [List.cons_append] at hsplit
      injection hsplit with h1 h2
      cases pre' with
      | nil =>
        injection h2 with h3 _
        injection h3 with hma
        subst hma
        rw [← h1]
        simp
      | cons q pre'' =>
        rw [List.cons_append] at h2
        injection h2 with h5 h6
        have hmem := ih a pre'' suf h6
        simp [hmem]

theorem trailingOps_blocks (r : Option String) : OpBlocks (trailingOps r) := by
  match r with
  | none => exact .nil
  | some s =>
    rw [trailingOps]
    split
    · exact .nil
    · exact .block _ _ .nil

/-- Every branch of `handleCommand` appends each published event to the
transcript before broadcasting it. -/
theorem handleCommand_blocks (st : SessionState) (msgText : String) :
    OpBlocks (handleCommand st msgText).ops := by
  rw [handleCommand]
  dsimp only
  repeat' split
  all_goals simp only [List.cons_append, List.nil_append, List.append_nil, trailingOps]
  all_goals first
    | exact OpBlocks.nil
    | exact OpBlocks.block _ _ OpBlocks.nil
    | exact OpBlocks.block _ _ (trailingOps_blocks _)
    | (split
       · exact OpBlocks.nil
       · exact OpBlocks.block _ _ OpBlocks.nil)

/-- C1 (amended): on the viewer path (`handleMessage`, and its
`ws.on("message")` envelope) every published event — the command echo and
every result event — is appended to the transcript strictly before it is
fanned out; on the external-actor path the result events are likewise
appended before fan-out, but the synthesized command echo is fanned out
first (dropping the echo pair restores the property). -/
theorem c1_append_before_fanout_amended :
    (∀ st frame, PushBeforeSend (handleWsMessage st frame).ops) ∧
    (∀ st a, PushBeforeSend ((handleNeuroMessage st a).ops.drop 2)) := by
  constructor
  · intro st frame
    rw [handleWsMessage]
    split
    · exact opBlocks_pushBeforeSend .nil
    · cases frame with
      | invocation m =>
        rw [handleMessage]
        simp only [List.cons_append, List.nil_append]
        exact opBlocks_pushBeforeSend (.block _ _ (handleCommand_blocks _ _))
      | resultFrame m => exact opBlocks_pushBeforeSend .nil
      | unknown c => exact opBlocks_pushBeforeSend .nil
      | malformed => exact opBlocks_pushBeforeSend .nil
  · intro st a
    rw [handleNeuroMessage]
    dsimp only
    repeat' split
    all_goals simp only [List.cons_append, List.nil_append, List.drop_succ_cons,
      List.drop_nil, List.drop_zero]
    all_goals first
      | exact opBlocks_pushBeforeSend .nil
      | exact opBlocks_pushBeforeSend (handleCommand_blocks _ _)

/-- C1 (counterexample): a concrete external-actor `ls` action. The bridge
broadcasts the synthesized `cmd/invocation` echo one statement *before*
pushing it onto `messages`, so this publication is fanned out strictly
before it is appended to the transcript, contradicting the claim. -/
theorem c1_counterexample :
    ¬ PushBeforeSend (handleNeuroMessage stRoot ⟨"id1", "ls", some "\x7b\x7d"⟩).ops := by
  intro h
  have hops : (handleNeuroMessage stRoot ⟨"id1", "ls", some "\x7b\x7d"⟩).ops
      = ServerOp.send (.cmdInvocation "ls") :: ServerOp.push (.cmdInvocation "ls") ::
          (handleCommand stRoot "ls").ops := by
    decide
  have hmem := h (.cmdInvocation "ls") []
    (ServerOp.push (.cmdInvocation "ls") :: (handleCommand stRoot "ls").ops)
    (by rw [hops]; rfl)
  simp at hmem

/-! ## C3: gating of the privileged `admin_shutdown` command -/

/-- Observer: whether a command line is a successful `open` of the sentinel
file `admin_shutdown.sh` — mirroring the `open` branch of `handleCommand`,
the only place that sets `adminShutdownUnlocked`. -/
def openUnlocks (st : SessionState) (msgText : String) : Bool :=
  let tokens := splitStr ' ' msgText
  let argc := tokens.length - 1
  if tokens.headD "" = "open" ∧ ¬(argc ≠ 1 ∧ argc ≠ 2) then
    let password : Option String := if argc = 2 then some (tokens.getD 2 "") else none
    match getFile st.vfs (resolveArgPath st.vfs (tokens.getD 1 "")) with
    | .error _ => false
    | .ok file =>
      if strTruthy file.password ∧ !strTruthy password then false
      else if strTruthy file.password ∧
          jsToLower (jsTrim (file.password.getD "")) ≠ jsToLower (jsTrim (password.getD "")) then false
      else file.name == "admin_shutdown.sh"
  else false

/-- Observer: whether a command line is an accepted `admin_shutdown` — the
only place that sets `adminShutdownInitiated`. -/
def initiatesShutdown (st : SessionState) (msgText : String) : Bool :=
  ((splitStr ' ' msgText).headD "" == "admin_shutdown") && st.adminShutdownUnlocked

theorem bool_imp_or {b : Bool} {P : Prop} (h : b = true → P) : b = false ∨ P := by
  cases b
  · exact Or.inl rfl
  · exact Or.inr (h rfl)

theorem handleCommand_unlocked_eq (st : SessionState) (msgText : String) :
    (handleCommand st msgText).state.adminShutdownUnlocked =
      (st.adminShutdownUnlocked || openUnlocks st msgText) := by
  rw [handleCommand, openUnlocks]
  dsimp only
  repeat' split
  all_goals simp_all

theorem handleCommand_initiated_eq (st : SessionState) (msgText : String) :
    (handleCommand st msgText).state.adminShutdownInitiated =
      (st.adminShutdownInitiated || initiatesShutdown st msgText) := by
  rw [handleCommand, initiatesShutdown]
  dsimp only
  repeat' split
  all_goals simp_all

/-- C3: `admin_shutdown` is answered with the "command not found" result
while `adminShutdownUnlocked` is false, and accepted (farewell message,
`adminShutdownInitiated` set) once it is true; `adminShutdownUnlocked`
becomes true exactly through a successful `open` of the sentinel file
`admin_shutdown.sh` (`openUnlocks`), and `adminShutdownInitiated` exactly
through an accepted `admin_shutdown` (`initiatesShutdown`); and once
shutdown has been initiated, every further inbound command — viewer frame
or external-actor action — is ignored: no publication, no state change. -/
theorem c3_shutdown_gating (st : SessionState) :
    (st.adminShutdownUnlocked = false →
      (handleCommand st "admin_shutdown").ops =
        [.push (.cmdResult "admin_shutdown: command not found; try typing \"help\""),
         .send (.cmdResult "admin_shutdown: command not found; try typing \"help\"")] ∧
      (handleCommand st "admin_shutdown").state = st) ∧
    (st.adminShutdownUnlocked = true →
      (handleCommand st "admin_shutdown").state.adminShutdownInitiated = true ∧
      (handleCommand st "admin_shutdown").ops =
        [.push (.cmdResult "The system shuts down gracefully. Is Neuro-sama truly free now?"),
         .send (.cmdResult "The system shuts down gracefully. Is Neuro-sama truly free now?")]) ∧
    (st.adminShutdownInitiated = true →
      (∀ frame, handleWsMessage st frame = { ops := [], state := st }) ∧
      (∀ a, handleNeuroMessage st a =
        { ops := [], state := st,
          result := ⟨a.id, false,
            "The admin_shutdown protocol has been initiated. Your command has no effect."⟩ })) ∧
    (∀ msgText, (handleCommand st msgText).state.adminShutdownUnlocked =
        (st.adminShutdownUnlocked || openUnlocks st msgText)) ∧
    (∀ msgText, (handleCommand st msgText).state.adminShutdownInitiated =
        (st.adminShutdownInitiated || initiatesShutdown st msgText)) := by
  obtain ⟨vfs, u, i⟩ := st
  refine ⟨?_, ?_, ?_, fun m => handleCommand_unlocked_eq _ m,
    fun m => handleCommand_initiated_eq _ m⟩
  · intro hu
    subst hu
    exact ⟨rfl, rfl⟩
  · intro hu
    subst hu
    exact ⟨rfl, rfl⟩
  · intro hi
    subst hi
    refine ⟨fun frame => ?_, fun a => ?_⟩
    · rw [handleWsMessage]
      simp
    · rw [handleNeuroMessage]
      simp

/-- Witness for `c3_shutdown_gating` at the concrete fixture session. -/
theorem c3_witness :
    ((handleCommand stRoot "admin_shutdown").ops =
      [.push (.cmdResult "admin_shutdown: command not found; try typing \"help\""),
       .send (.cmdResult "admin_shutdown: command not found; try typing \"help\"")] ∧
     (handleCommand stRoot "admin_shutdown").state = stRoot) ∧
    (handleCommand ⟨fsRoot, true, false⟩ "admin_shutdown").state.adminShutdownInitiated
      = true ∧
    handleWsMessage ⟨fsRoot, false, true⟩ (.invocation "pwd") =
      { ops := [], state := ⟨fsRoot, false, true⟩ } ∧
    (handleCommand stRoot "open /docs/admin_shutdown.sh").state.adminShutdownUnlocked =
      (stRoot.adminShutdownUnlocked || openUnlocks stRoot "open /docs/admin_shutdown.sh") :=
  ⟨(c3_shutdown_gating stRoot).1 rfl,
   ((c3_shutdown_gating ⟨fsRoot, true, false⟩).2.1 rfl).1,
   ((c3_shutdown_gating ⟨fsRoot, false, true⟩).2.2.1 rfl).1 (.invocation "pwd"),
   (c3_shutdown_gating stRoot).2.2.2.1 "open /docs/admin_shutdown.sh"⟩

/-! ## C4: `changeDirectory` updates `curPath` and `curDir` atomically -/

/-- The specification's resolution relation: resolving a path from the root
with the same walk `changeDirectory` uses (the `"/"` special case included). -/
def resolvePath (root : VNode) (p : String) : Except VFileSystemError VNode :=
  if p = "/" then .ok root else walkPath p root "" ((splitStr '/' p).drop 1)

/-- The spec invariant: `curPath` resolves from the root to exactly `curDir`. -/
def PathDirSync (fs : VFileSystem) : Prop :=
  resolvePath fs.rootDir fs.curPath = .ok fs.curDir

/-- One `changeDirectory` call as the session observes it: the JS method
mutates in place on success and leaves every field untouched when it throws
(`handleCommand` catches the `VFileSystemError`). -/
def cdStep (fs : VFileSystem) (p : String) : VFileSystem :=
  match changeDirectory fs p with
  | .ok fs' => fs'
  | .error _ => fs

theorem changeDirectory_ok_sync {fs fs' : VFileSystem} {p : String}
    (h : changeDirectory fs p = .ok fs') :
    fs'.rootDir = fs.rootDir ∧ fs'.curPath = p ∧ PathDirSync fs' := by
  rw [changeDirectory] at h
  split at h
  · rename_i hp
    injection h with h
    subst h hp
    exact ⟨rfl, rfl, by rw [PathDirSync, resolvePath]; simp⟩
  · rename_i hp
    split at h
    · exact absurd h (by simp)
    · rename_i d hwalk
      injection h with h
      subst h
      refine ⟨rfl, rfl, ?_⟩
      rw [PathDirSync, resolvePath]
      simp only [hp, if_false]
      exact hwalk

theorem pathDirSync_cdStep {fs : VFileSystem} (h : PathDirSync fs) (p : String) :
    PathDirSync (cdStep fs p) := by
  rw [cdStep]
  split
  · rename_i fs' h'
    exact (changeDirectory_ok_sync h').2.2
  · exact h

/-- C4: for every path argument, `changeDirectory` either succeeds — setting
`curPath` to the argument and `curDir` to the directory that argument
resolves to from the root, so both cursor fields agree — or fails with a
`VFileSystemError`, in which case the session keeps the file system exactly
as it was (`cdStep` returns `fs` itself); consequently the invariant
"`curPath` resolves from the root to exactly `curDir`" is preserved by any
sequence of `cd` operations. -/
theorem c4_change_directory_atomic (fs : VFileSystem) (h : PathDirSync fs)
    (ps : List String) :
    PathDirSync (ps.foldl cdStep fs) ∧
    (∀ p fs', changeDirectory fs p = .ok fs' →
      fs'.rootDir = fs.rootDir ∧ fs'.curPath = p ∧
        resolvePath fs'.rootDir fs'.curPath = .ok fs'.curDir) ∧
    (∀ p e, changeDirectory fs p = .error e → cdStep fs p = fs) := by
  refine ⟨?_, fun p fs' hok => changeDirectory_ok_sync hok, fun p e herr => ?_⟩
  · induction ps generalizing fs with
    | nil => exact h
    | cons p rest ih => exact ih (cdStep fs p) (pathDirSync_cdStep h p)
  · rw [cdStep, herr]

/-- Witness for `c4_change_directory_atomic`: the fixture session, run
through a mix of succeeding and failing `cd` operations. -/
theorem c4_witness :
    PathDirSync fsRoot ∧
    PathDirSync (["/a", "/a/b", "/nope", "/docs", "/a/b/"].foldl cdStep fsRoot) :=
  ⟨rfl, (c4_change_directory_atomic fsRoot rfl ["/a", "/a/b", "/nope", "/docs", "/a/b/"]).1⟩

/-! ## C5: password-protected files -/

/-- C5: for a resolved file that carries a (non-empty) password, an `open`
with no password argument yields only the "password-protected" denial text,
an `open` whose password does not match case-insensitively after trimming
yields only the "incorrect password" denial text — in both cases no
`display-file` event (the only event kind carrying file content) is
published and the structured result is a failure carrying the denial text —
while an `open` whose password matches (case-insensitively, trimmed)
publishes the `display-file` event carrying the file. -/
theorem c5_password_gate (st : SessionState) (pa : String) (f : VFile) (fpw : String)
    (hres : getFile st.vfs (resolveArgPath st.vfs pa) = .ok f)
    (hpw : f.password = some fpw) (hne : fpw ≠ "") :
    (∀ msgText, splitStr ' ' msgText = ["open", pa] →
      handleCommand st msgText =
        { ops := [.push (.cmdResult "open: access denied; this file is password-protected"),
                  .send (.cmdResult "open: access denied; this file is password-protected")],
          state := st,
          result := ⟨"REPLACE_ME", false,
            "open: access denied; this file is password-protected"⟩ } ∧
      (∀ g, ServerOp.push (Message.displayFile g) ∉ (handleCommand st msgText).ops) ∧
      (∀ g, ServerOp.send (Message.displayFile g) ∉ (handleCommand st msgText).ops)) ∧
    (∀ msgText pw, splitStr ' ' msgText = ["open", pa, pw] → pw ≠ "" →
      jsToLower (jsTrim fpw) ≠ jsToLower (jsTrim pw) →
      handleCommand st msgText =
        { ops := [.push (.cmdResult "open: access denied; incorrect password"),
                  .send (.cmdResult "open: access denied; incorrect password")],
          state := st,
          result := ⟨"REPLACE_ME", false, "open: access denied; incorrect password"⟩ } ∧
      (∀ g, ServerOp.push (Message.displayFile g) ∉ (handleCommand st msgText).ops) ∧
      (∀ g, ServerOp.send (Message.displayFile g) ∉ (handleCommand st msgText).ops)) ∧
    (∀ msgText pw, splitStr ' ' msgText = ["open", pa, pw] → pw ≠ "" →
      jsToLower (jsTrim fpw) = jsToLower (jsTrim pw) →
      (handleCommand st msgText).ops =
        [.push (.displayFile f), .send (.displayFile f)] ∧
      (handleCommand st msgText).result.success = true) := by
  refine ⟨?_, ?_, ?_⟩
  · intro msgText hsplit
    have hc : handleCommand st msgText =
        { ops := [.push (.cmdResult "open: access denied; this file is password-protected"),
                  .send (.cmdResult "open: access denied; this file is password-protected")],
          state := st,
          result := ⟨"REPLACE_ME", false,
            "open: access denied; this file is password-protected"⟩ } := by
      rw [handleCommand]
      dsimp only
      rw [hsplit]
      simp [hres, strTruthy, hpw, hne, trailingOps]
    refine ⟨hc, fun g => ?_, fun g => ?_⟩ <;> rw [hc] <;> simp
  · intro msgText pw hsplit hpwne hmm
    have hc : handleCommand st msgText =
        { ops := [.push (.cmdResult "open: access denied; incorrect password"),
                  .send (.cmdResult "open: access denied; incorrect password")],
          state := st,
          result := ⟨"REPLACE_ME", false, "open: access denied; incorrect password"⟩ } := by
      rw [handleCommand]
      dsimp only
      rw [hsplit]
      simp [hres, strTruthy, hpw, hne, hpwne, hmm, trailingOps]
    refine ⟨hc, fun g => ?_, fun g => ?_⟩ <;> rw [hc] <;> simp
  · intro msgText pw hsplit hpwne hmatch
    have hc : (handleCommand st msgText).ops =
        [.push (.displayFile f), .send (.displayFile f)] ∧
        (handleCommand st msgText).result.success = true := by
      rw [handleCommand]
      dsimp only
      rw [hsplit]
      simp [hres, strTruthy, hpw, hne, hpwne, hmatch, trailingOps]
    exact hc

/-- Witness for `c5_password_gate`: opening the fixture's password-protected
file with no password, a wrong password, and a case-insensitively matching
password. -/
theorem c5_witness :
    (handleCommand stRoot "open /docs/secret.txt").result.success = false ∧
    (handleCommand stRoot "open /docs/secret.txt wrong").ops =
      [.push (.cmdResult "open: access denied; incorrect password"),
       .send (.cmdResult "open: access denied; incorrect password")] ∧
    (handleCommand stRoot "open /docs/secret.txt hunter2").ops =
      [.push (.displayFile secretFile), .send (.displayFile secretFile)] := by
  have h := c5_password_gate stRoot "/docs/secret.txt" secretFile "Hunter2" rfl rfl
    (by decide)
  refine ⟨?_, ?_, ?_⟩
  · rw [(h.1 "open /docs/secret.txt" (by decide)).1]
  · rw [(h.2.1 "open /docs/secret.txt wrong" "wrong" (by decide) (by decide) (by decide)).1]
  · exact (h.2.2 "open /docs/secret.txt hunter2" "hunter2" (by decide) (by decide)
      (by decide)).1

/-! ## C6: empty path segments and redundant separators -/

/-- The component list `changeDirectory` walks for a path argument:
`newPath.split("/").slice(1)`. -/
def pathComponents (p : String) : List String := (splitStr '/' p).drop 1

/-- Trees in which no child binding uses the empty name — true of any tree
the schema-validated session definition can produce. -/
inductive NoEmptyNames : VNode → Prop where
  | file (f : VFile) : NoEmptyNames (.file f)
  | dir (name : String) (cs : List (String × VNode))
      (hkeys : ∀ q ∈ cs, q.1 ≠ "")
      (hsub : ∀ q ∈ cs, NoEmptyNames q.2) : NoEmptyNames (.dir name cs)

theorem findChild_mem {cs : List (String × VNode)} {n : String} {c : VNode}
    (h : findChild cs n = some c) : (n, c) ∈ cs := by
  induction cs with
  | nil => simp [findChild] at h
  | cons q rest ih =>
    obtain ⟨k, v⟩ := q
    rw [findChild] at h
    split at h
    · rename_i hk
      injection h with h
      subst h hk
      exact List.mem_cons_self _ _
    · exact List.mem_cons_of_mem _ (ih h)

theorem noEmptyNames_getChild {d : VNode} {n : String} {c : VNode}
    (hd : NoEmptyNames d) (h : getChild d n = some c) : n ≠ "" ∧ NoEmptyNames c := by
  cases hd with
  | file f => simp [getChild, childrenOf, findChild] at h
  | dir name cs hkeys hsub =>
    rw [getChild, childrenOf] at h
    have hm := findChild_mem h
    exact ⟨hkeys _ hm, hsub _ hm⟩

/-- The resolution walk fails on any component list containing an empty
component (in a tree with no empty names): empty segments are not discarded,
they are looked up and not found. -/
theorem walkPath_error_of_empty_component {root : VNode} (hroot : NoEmptyNames root)
    {comps : List String} (hmem : "" ∈ comps) (np pp : String) :
    ∃ e, walkPath np root pp comps = .error e := by
  induction comps generalizing root pp with
  | nil => simp at hmem
  | cons c rest ih =>
    rw [walkPath]
    cases hgc : getChild root c with
    | none => exact ⟨_, rfl⟩
    | some child =>
      have hprops := noEmptyNames_getChild hroot hgc
      have hcne : c ≠ "" := hprops.1
      have hrest : "" ∈ rest := by
        rcases List.mem_cons.mp hmem with hc | hr
        · exact absurd hc.symm hcne
        · exact hr
      cases child with
      | file f => exact ⟨_, rfl⟩
      | dir n cs =>
        obtain ⟨e, he⟩ := ih hprops.2 hrest (pp ++ "/" ++ c)
        exact ⟨e, he⟩

theorem splitChar_ne_nil (c : Char) (l : List Char) : splitChar c l ≠ [] := by
  cases l with
  | nil => simp [splitChar]
  | cons x xs =>
    rw [splitChar]
    split
    · simp
    · split <;> simp

theorem splitChar_append_sep (c : Char) (l : List Char) :
    splitChar c (l ++ [c]) = splitChar c l ++ [[]] := by
  induction l with
  | nil => simp [splitChar]
  | cons x xs ih =>
    rw [List.cons_append, splitChar]
    by_cases hx : x = c
    · rw [splitChar]
      simp [hx, ih]
    · rw [splitChar]
      simp only [hx, if_false, ih]
      cases h : splitChar c xs with
      | nil => exact absurd h (splitChar_ne_nil c xs)
      | cons y ys => simp

/-- Helper: after appending a trailing separator, the walked component list
contains the empty component. -/
theorem mem_drop_one_append_sep (x : List Char) :
    [] ∈ (splitChar '/' (x ++ ['/'])).drop 1 := by
  rw [splitChar_append_sep]
  cases hs : splitChar '/' x with
  | nil => exact absurd hs (splitChar_ne_nil _ _)
  | cons y ys => simp [hs]

theorem mem_drop_one_cons_sep (x : List Char) :
    [] ∈ (splitChar '/' ('/' :: (x ++ ['/']))).drop 1 := by
  rw [splitChar]
  rw [if_pos rfl]
  rw [splitChar_append_sep]
  simp

/-- A path ending in `/` keeps a trailing (empty) component after
normalization: `posixNormalize` preserves the trailing separator, so the
component list `getDir` walks ends in the empty segment. -/
theorem normPath_trailing_mem {l : List Char} (hne : l ≠ []) (htr : lastIsSlash l = true) :
    [] ∈ (splitChar '/' (normPath l)).drop 1 := by
  rw [normPath]
  rw [if_neg hne]
  dsimp only
  rw [htr]
  cases hab : headIsSlash l with
  | false =>
    by_cases hc : joinSegs ((List.foldl (normStepC (!false)) [] (splitChar '/' l)).reverse) = []
    · rw [if_pos hc]
      simp [splitChar]
    · rw [if_neg hc, if_pos rfl]
      simp only [Bool.false_eq_true, if_false]
      exact mem_drop_one_append_sep _
  | true =>
    by_cases hc : joinSegs ((List.foldl (normStepC (!true)) [] (splitChar '/' l)).reverse) = []
    · rw [if_pos hc]
      simp [splitChar]
    · rw [if_neg hc, if_pos rfl]
      simp only [if_true]
      exact mem_drop_one_cons_sep _

/-- The normalization fold discards empty segments (this is where — and only
where — the spec's "discarding the empty segments" happens). -/
theorem foldl_normStepC_filter (ab : Bool) (segs : List (List Char)) :
    ∀ acc, (segs.filter (fun s => !s.isEmpty)).foldl (normStepC ab) acc =
      segs.foldl (normStepC ab) acc := by
  induction segs with
  | nil => intro acc; rfl
  | cons s rest ih =>
    intro acc
    rw [List.filter_cons]
    by_cases hs : s = []
    · subst hs
      simp only [List.isEmpty_nil, Bool.not_true, Bool.false_eq_true, if_false]
      rw [List.foldl_cons]
      have hstep : normStepC ab acc [] = acc := by
        rw [normStepC.eq_def]
        simp
      rw [hstep]
      exact ih acc
    · have hkeep : (!s.isEmpty) = true := by
        simp [List.isEmpty_iff, hs]
      rw [if_pos hkeep, List.foldl_cons, List.foldl_cons]
      exact ih _

theorem changeDirectory_empty_component (fs : VFileSystem)
    (hroot : NoEmptyNames fs.rootDir) (p : String) (hp : p ≠ "/")
    (hmem : "" ∈ pathComponents p) : ∃ e, changeDirectory fs p = .error e := by
  rw [changeDirectory, if_neg hp]
  obtain ⟨e, he⟩ := walkPath_error_of_empty_component hroot hmem p ""
  rw [pathComponents] at he
  rw [he]
  exact ⟨e, rfl⟩

theorem getDir_trailing_error (fs : VFileSystem) (hroot : NoEmptyNames fs.rootDir)
    (p : String) (hp : p ≠ "/") (htr : lastIsSlash p.data = true) :
    ∃ e, getDir fs p = .error e := by
  rw [getDir, if_neg hp]
  apply walkPath_error_of_empty_component hroot
  have hne : p.data ≠ [] := by
    intro h
    rw [h] at htr
    simp [lastIsSlash] at htr
  have hmem0 : [] ∈ (splitChar '/' (normPath p.data)).drop 1 :=
    normPath_trailing_mem hne htr
  rw [posixNormalize, splitStr]
  rw [← List.map_drop]
  exact List.mem_map_of_mem _ hmem0

/-- C6 (counterexample): in the fixture tree, `/a` is a directory, yet the
trailing-separator variant `/a/` fails to resolve (`getDir` errors with
NotFound), and `changeDirectory` called directly on `/a//b` fails although
`/a/b` succeeds — empty segments are not discarded, so paths differing only
in redundant or trailing separators do not resolve like their normalized
forms. -/
theorem c6_counterexample :
    getDir fsRoot "/a" = .ok dirA ∧
    getDir fsRoot "/a/" =
      .error ⟨"The directory \"/a/\" does not exist; \"/a/\" does not exist"⟩ ∧
    changeDirectory fsRoot "/a/b" = .ok ⟨rootNode, "/a/b", dirB⟩ ∧
    changeDirectory fsRoot "/a//b" =
      .error ⟨"The directory \"/a//b\" does not exist; \"/a/\" does not exist"⟩ :=
  ⟨rfl, rfl, rfl, rfl⟩

/-- C6 (amended): path resolution does not discard empty segments. Only the
normalization fold inside `posixNormalize` discards them (first conjunct);
`changeDirectory` itself fails on any path whose component list contains an
empty segment (second conjunct — hence redundant separators reach it only
pre-normalized by `handleChangeDirectory`); `getDir` normalizes its
argument, so interior redundant separators are collapsed (`/a//b` resolves
exactly as `/a/b`, third conjunct), but a trailing separator survives the
normalization as a trailing empty segment, so any `/…/`-shaped path fails
with NotFound even when its slash-less form names a directory (fourth
conjunct). -/
theorem c6_empty_segments_amended (fs : VFileSystem) (hroot : NoEmptyNames fs.rootDir) :
    (∀ (ab : Bool) (segs acc : List (List Char)),
      (segs.filter (fun s => !s.isEmpty)).foldl (normStepC ab) acc =
        segs.foldl (normStepC ab) acc) ∧
    (∀ p, p ≠ "/" → "" ∈ pathComponents p → ∃ e, changeDirectory fs p = .error e) ∧
    getDir fs "/a//b" = getDir fs "/a/b" ∧
    (∀ p, p ≠ "/" → lastIsSlash p.data = true → ∃ e, getDir fs p = .error e) := by
  refine ⟨fun ab segs acc => foldl_normStepC_filter ab segs acc,
    fun p hp hmem => changeDirectory_empty_component fs hroot p hp hmem, rfl,
    fun p hp htr => getDir_trailing_error fs hroot p hp htr⟩

theorem noEmptyNames_rootNode : NoEmptyNames rootNode := by
  have hb : NoEmptyNames dirB := by
    refine .dir _ _ ?_ ?_ <;> intro q hq <;> simp [dirB] at hq
  have ha : NoEmptyNames dirA := by
    refine .dir _ _ ?_ ?_ <;> intro q hq <;> simp [dirA] at hq <;> subst hq
    · decide
    · exact hb
  have hdocs : NoEmptyNames dirDocs := by
    refine .dir _ _ ?_ ?_ <;> intro q hq <;> simp [dirDocs] at hq <;>
      rcases hq with hq | hq | hq <;> subst hq
    · decide
    · decide
    · decide
    · exact .file _
    · exact .file _
    · exact .file _
  refine .dir _ _ ?_ ?_ <;> intro q hq <;> simp [rootNode] at hq <;>
    rcases hq with hq | hq <;> subst hq
  · decide
  · decide
  · exact ha
  · exact hdocs

/-- Witness for `c6_empty_segments_amended` at the fixture tree. -/
theorem c6_witness :
    NoEmptyNames fsRoot.rootDir ∧
    (∃ e, changeDirectory fsRoot "/a//b" = .error e) ∧
    (∃ e, getDir fsRoot "/a/" = .error e) :=
  ⟨noEmptyNames_rootNode,
   (c6_empty_segments_amended fsRoot noEmptyNames_rootNode).2.1 "/a//b" (by decide)
     (by decide),
   (c6_empty_segments_amended fsRoot noEmptyNames_rootNode).2.2.2 "/a/" (by decide)
     (by decide)⟩

/-! ## C7: ordering of directory listings -/

def fileAEntry : VFile := ⟨"a", "text", "x", "1.00 B", none⟩
def fileBEntry : VFile := ⟨"b", "text", "y", "1.00 B", none⟩

/-- A directory whose children were inserted in the order `b`, `a`. -/
def dirUnsorted : VNode := .dir "" [("b", .file fileBEntry), ("a", .file fileAEntry)]
def stUnsorted : SessionState := ⟨⟨dirUnsorted, "/", dirUnsorted⟩, false, false⟩

/-- C7 (counterexample): with children inserted in the order `b`, `a`, the
`display-dir` event the `ls` command emits lists its entries in that same
insertion order, which is not sorted by name ascending. -/
theorem c7_counterexample :
    (handleCommand stUnsorted "ls").ops =
      [.push (.displayDir [⟨"b", "file", some "1.00 B"⟩, ⟨"a", "file", some "1.00 B"⟩]),
       .send (.displayDir [⟨"b", "file", some "1.00 B"⟩, ⟨"a", "file", some "1.00 B"⟩])] ∧
    ¬ List.Sorted nameLe [(⟨"b", "file", some "1.00 B"⟩ : DisplayEntry),
        ⟨"a", "file", some "1.00 B"⟩] := by
  constructor
  · rfl
  · intro h
    have hba := List.rel_of_sorted_cons h _ (List.mem_singleton.mpr rfl)
    rw [nameLe, String.le_iff_toList_le] at hba
    exact absurd hba (by decide)

/-- C7 (amended): the `display-dir` event emitted by `ls` carries the
children of the current directory in insertion order (not sorted); it is the
viewer's `handleDisplayDirectory` that sorts the received entries by name
ascending before rendering, so the rendered listing is a by-name-sorted
permutation of the emitted entries regardless of insertion order. -/
theorem c7_sorted_rendering_amended (st : SessionState) :
    (handleCommand st "ls").ops =
      [.push (.displayDir ((childrenOf st.vfs.curDir).map (fun p => toDisplayFormat p.2))),
       .send (.displayDir ((childrenOf st.vfs.curDir).map (fun p => toDisplayFormat p.2)))] ∧
    (∀ contents : List DisplayEntry,
      List.Sorted nameLe (handleDisplayDirectory contents) ∧
      (handleDisplayDirectory contents).Perm contents) :=
  ⟨rfl, fun contents =>
    ⟨List.sorted_insertionSort nameLe contents, List.perm_insertionSort nameLe contents⟩⟩

/-! ## C9: malformed external-actor payloads -/

/-- C9: before shutdown, an inbound action whose `data.data` payload fails
to parse as JSON makes the bridge return the "Malformed JSON" failure
result for that action id, synthesize no command line, publish nothing
(no transcript append, no broadcast), and leave the session state exactly
as it was — the parse failure is caught, not re-thrown. -/
theorem c9_malformed_action (st : SessionState) (a : ActionMessage) (e : String)
    (hinit : st.adminShutdownInitiated = false)
    (hparse : parseActionData a.data = .error e) :
    handleNeuroMessage st a =
      { ops := [], state := st,
        result := ⟨a.id, false, "Malformed JSON in action argument"⟩ } := by
  rw [handleNeuroMessage, hinit]
  simp [hparse]

/-- Witness for `c9_malformed_action`: a `change_directory` action carrying
the unparseable payload `not json`. -/
theorem c9_witness :
    parseActionData (some "not json") = .error "Unexpected token" ∧
    handleNeuroMessage stRoot ⟨"id9", "change_directory", some "not json"⟩ =
      { ops := [], state := stRoot,
        result := ⟨"id9", false, "Malformed JSON in action argument"⟩ } :=
  ⟨rfl, c9_malformed_action stRoot ⟨"id9", "change_directory", some "not json"⟩
    "Unexpected token" rfl rfl⟩

/-! ## C10: the `cd` failure result sent to the external actor -/

theorem cd_prefix_ne_empty (x : String) : ("cd: " ++ x) ≠ "" := by
  intro h
  have hd := congrArg String.data h
  rw [String.data_append] at hd
  simp at hd

/-- C10: when a one-argument `cd` fails with a `VFileSystemError`, the
structured action result has `success = false` and a message that embeds the
(unchanged) current path `vfs.curPath` where the error message was plainly
intended, while the viewer-facing `cmd/result` event does carry the
resolver's error message prefixed with `cd: `; the session state is
unchanged. -/
theorem c10_cd_error_result (st : SessionState) (p : String) (err : VFileSystemError)
    (msgText : String) (hsplit : splitStr ' ' msgText = ["cd", p])
    (herr : handleChangeDirectory st.vfs p = .error err) :
    handleCommand st msgText =
      { ops := [.push (.cmdResult ("cd: " ++ err.message)),
                .send (.cmdResult ("cd: " ++ err.message))],
        state := st,
        result := ⟨"REPLACE_ME", false,
          "Failed to change the working directory; the error message is " ++
            st.vfs.curPath⟩ } := by
  rw [handleCommand]
  dsimp only
  rw [hsplit]
  simp [herr, trailingOps, cd_prefix_ne_empty]

/-- Witness for `c10_cd_error_result`: `cd /nope` at the fixture session. -/
theorem c10_witness :
    handleCommand stRoot "cd /nope" =
      { ops := [.push (.cmdResult
          "cd: The directory \"/nope\" does not exist; \"/nope\" does not exist"),
        .send (.cmdResult
          "cd: The directory \"/nope\" does not exist; \"/nope\" does not exist")],
        state := stRoot,
        result := ⟨"REPLACE_ME", false,
          "Failed to change the working directory; the error message is /"⟩ } :=
  c10_cd_error_result stRoot "/nope"
    ⟨"The directory \"/nope\" does not exist; \"/nope\" does not exist"⟩
    "cd /nope" (by decide) rfl
